import Mathlib

/-!
Verification of the PSoC BLE OTA host tooling: the DFU packet codec, status
interpreter and cyacd2 image parser from `cydfu.py`, and the firmware-update
orchestrator from `update.py`, shallowly embedded over `Nat` byte lists.
-/

set_option maxRecDepth 4096

/-- Failure outcomes of the embedded Python code.  `hostError` embeds
`cydfu.HostError` (malformed or corrupted response frames, bad packet
arguments, missed notifications); `dfu k` embeds the `DFUError` subclass
selected by `_checkStatusCode`; `unexpected` embeds `UnexpectedError`;
`structError`, `valueError`, `indexError` and `stopIteration` embed the
corresponding built-in Python exceptions escaping `struct.pack`/`unpack`,
`bytes.fromhex`/`int`, sequence indexing and `next`. -/
inductive PyErr where
  | hostError
  | unexpected
  | structError
  | valueError
  | indexError
  | stopIteration
  | invalidFileType
  | invalidApplicationFile
  | dfu (kind : Nat)
deriving DecidableEq

/-- Semantic outcome of a DFU status byte, one variant per entry of
`DFUProtocol._DFU_STATUS_CODE` plus `undefined` for codes outside the table. -/
inductive StatusKind where
  | ok
  | verifyError
  | lengthError
  | dataError
  | commandError
  | checksumError
  | rowError
  | rowAccessError
  | unknownError
  | undefined
deriving DecidableEq

/-- Little-endian byte encoding of `n` on `w` bytes, as produced by
`struct.pack` with an in-range unsigned field. -/
def leBytes : Nat → Nat → List Nat
  | 0, _ => []
  | w + 1, n => n % 256 :: leBytes w (n / 256)

/-- Little-endian value of a byte list, as read by `struct.unpack`. -/
def leValue : List Nat → Nat
  | [] => 0
  | b :: rest => b + 256 * leValue rest

/-- `struct.pack` of one unsigned `w`-byte little-endian field: in-range
values encode, out-of-range values raise `struct.error`. -/
def packU (w n : Nat) : Except PyErr (List Nat) :=
  if n < 2 ^ (8 * w) then .ok (leBytes w n) else .error .structError

/-- Embeds `DFUProtocol._calcChecksum_2sComplement_16bit`: the Python
expression `(-sum(data)) & 0xFFFF`. -/
def calcChecksum (data : List Nat) : Nat :=
  (65536 - data.sum % 65536) % 65536

/-- The byte sequence assembled by `DFUProtocol._createCmdPacket` for an
in-range command and payload: `struct.pack("<ccH{n}s", 0x01, cmd, n, payload)`
followed by `struct.pack("<Hc", checksum, 0x17)`. -/
def packetBytes (cmd : Nat) (payload : List Nat) : List Nat :=
  let body := 1 :: cmd :: (leBytes 2 payload.length ++ payload)
  body ++ leBytes 2 (calcChecksum body) ++ [23]

/-- Embeds `DFUProtocol._createCmdPacket`: a command that is not a single
byte raises `HostError`; a payload longer than an unsigned 16-bit length
field raises `struct.error` inside `struct.pack("<ccH...")`. -/
def createCmdPacket (cmd : Nat) (payload : List Nat) : Except PyErr (List Nat) :=
  if cmd ≥ 256 then .error .hostError
  else if payload.length ≥ 65536 then .error .structError
  else .ok (packetBytes cmd payload)

/-- Embeds `DFUProtocol._checkStatusCode` together with the
`_DFU_STATUS_CODE` table, as the pure mapping from the status byte to the
outcome it selects (success, one of the eight `DFUError` subclasses, or
`UnexpectedError` for a code outside the table). -/
def checkStatusCode (code : Nat) : StatusKind :=
  if code = 0x00 then .ok
  else if code = 0x02 then .verifyError
  else if code = 0x03 then .lengthError
  else if code = 0x04 then .dataError
  else if code = 0x05 then .commandError
  else if code = 0x08 then .checksumError
  else if code = 0x0A then .rowError
  else if code = 0x0B then .rowAccessError
  else if code = 0x0F then .unknownError
  else .undefined

/-- Embeds `DFUProtocol._getResponse`.  The header unpack `"<ccH"` needs at
least 4 bytes; the body unpack `f"<{dataLength}sHc"` of `packet[4:]` needs
the remainder to be exactly `dataLength + 3` bytes; then the start and end
markers are checked, and the checksum of `packet[:-3]` (under the previous
length equality, the first `dataLength + 4` bytes) must equal the
transmitted one.  Every failure raises `HostError`. -/
def getResponse : List Nat → Except PyErr (Nat × List Nat)
  | s :: c :: l0 :: l1 :: rest =>
    let dataLength := l0 + 256 * l1
    if rest.length = dataLength + 3 then
      if s = 1 ∧ rest.getD (dataLength + 2) 0 = 23 then
        if calcChecksum (s :: c :: l0 :: l1 :: rest.take dataLength) =
            rest.getD dataLength 0 + 256 * rest.getD (dataLength + 1) 0 then
          .ok (c, rest.take dataLength)
        else .error .hostError
      else .error .hostError
    else .error .hostError
  | _ => .error .hostError

/-- `leBytes 2` recombines to its value below `2 ^ 16`. -/
theorem leBytes_two_value (n : Nat) (h : n < 65536) :
    n % 256 + 256 * (n / 256 % 256) = n := by
  omega

/-- C1: for every 1-byte command and payload whose length fits in an
unsigned 16-bit field, `_createCmdPacket` produces exactly
`start(0x01) | command | length(2, LE) | payload | checksum(2, LE) | end(0x17)`
with the checksum equal to the 16-bit two's complement of the sum of every
byte from the start marker through the last payload byte. -/
theorem createCmdPacket_layout (cmd : Nat) (payload : List Nat)
    (h1 : cmd < 256) (h2 : payload.length < 65536) :
    createCmdPacket cmd payload =
      .ok ([1, cmd] ++ leBytes 2 payload.length ++ payload ++
        leBytes 2 ((65536 -
          ([1, cmd] ++ leBytes 2 payload.length ++ payload).sum % 65536) % 65536) ++
        [23]) := by
  simp only [createCmdPacket, packetBytes, calcChecksum]
  rw [if_neg (by omega), if_neg (by omega)]
  simp

/-- Witness for C1 at `cmd = 2`, `payload = [5]`. -/
theorem createCmdPacket_layout_witness :
    createCmdPacket 2 [5] =
      .ok ([1, 2] ++ leBytes 2 (List.length [5]) ++ [5] ++
        leBytes 2 ((65536 -
          ([1, 2] ++ leBytes 2 (List.length [5]) ++ [5]).sum % 65536) % 65536) ++
        [23]) :=
  createCmdPacket_layout 2 [5] (by decide) (by decide)

/-- The checksum is always below `2 ^ 16`. -/
theorem calcChecksum_lt (data : List Nat) : calcChecksum data < 65536 := by
  unfold calcChecksum; omega

/-- `packetBytes` in explicit cons form. -/
theorem packetBytes_cons (cmd : Nat) (payload : List Nat) :
    packetBytes cmd payload =
      1 :: cmd :: payload.length % 256 :: payload.length / 256 % 256 ::
        (payload ++
          [calcChecksum (1 :: cmd :: (leBytes 2 payload.length ++ payload)) % 256,
           calcChecksum (1 :: cmd :: (leBytes 2 payload.length ++ payload)) / 256 % 256,
           23]) := by
  simp [packetBytes, leBytes]

/-- Decoding a frame built by `_createCmdPacket` recovers the byte in the
command/status slot and the payload. -/
theorem getResponse_packetBytes (cmd : Nat) (payload : List Nat)
    (h2 : payload.length < 65536) :
    getResponse (packetBytes cmd payload) = .ok (cmd, payload) := by
  rw [packetBytes_cons]
  have harg : (1 :: cmd :: (leBytes 2 payload.length ++ payload)) =
      1 :: cmd :: payload.length % 256 :: payload.length / 256 % 256 :: payload := by
    simp [leBytes]
  set ck := calcChecksum (1 :: cmd :: (leBytes 2 payload.length ++ payload)) with hckdef
  have hck : ck < 65536 := calcChecksum_lt _
  simp only [getResponse]
  rw [leBytes_two_value payload.length h2]
  have hlen : (payload ++ [ck % 256, ck / 256 % 256, 23]).length = payload.length + 3 := by
    simp
  rw [if_pos hlen]
  have htake : (payload ++ [ck % 256, ck / 256 % 256, 23]).take payload.length = payload :=
    List.take_left payload _
  have hg0 : (payload ++ [ck % 256, ck / 256 % 256, 23]).getD payload.length 0 = ck % 256 := by
    rw [List.getD_append_right _ _ _ _ (Nat.le_refl _)]
    simp
  have hg1 : (payload ++ [ck % 256, ck / 256 % 256, 23]).getD (payload.length + 1) 0 =
      ck / 256 % 256 := by
    rw [List.getD_append_right _ _ _ _ (by omega)]
    simp
  have hg2 : (payload ++ [ck % 256, ck / 256 % 256, 23]).getD (payload.length + 2) 0 = 23 := by
    rw [List.getD_append_right _ _ _ _ (by omega)]
    simp
  rw [hg2, if_pos (show True ∧ (23 : Nat) = 23 from ⟨trivial, rfl⟩), hg0, hg1, htake]
  rw [if_pos]
  rw [← harg, ← hckdef]
  omega

/-- C2: decoding the bytes produced by encoding a valid `(command, payload)`
pair succeeds and returns the original payload, with the status-code slot
holding the command byte; a `0x00` in that slot is interpreted as success. -/
theorem encode_decode_roundtrip (cmd : Nat) (payload packet : List Nat)
    (h1 : cmd < 256) (h2 : payload.length < 65536)
    (hp : createCmdPacket cmd payload = .ok packet) :
    getResponse packet = .ok (cmd, payload) ∧ checkStatusCode 0 = StatusKind.ok := by
  have hpk : packet = packetBytes cmd payload := by
    simp only [createCmdPacket] at hp
    rw [if_neg (by omega), if_neg (by omega)] at hp
    exact (Except.ok.inj hp).symm
  subst hpk
  exact ⟨getResponse_packetBytes cmd payload h2, rfl⟩

/-- Witness for C2 at `cmd = 0x38`, `payload = [5, 6]`. -/
theorem encode_decode_roundtrip_witness :
    getResponse (packetBytes 0x38 [5, 6]) = .ok (0x38, [5, 6]) ∧
      checkStatusCode 0 = StatusKind.ok :=
  encode_decode_roundtrip 0x38 [5, 6] (packetBytes 0x38 [5, 6])
    (by decide) (by decide) (by rw [createCmdPacket, if_neg (by decide), if_neg (by decide)])

/-- Replacing one in-bounds element changes a byte-list sum by the
difference of the old and new entries. -/
theorem listSumSet : ∀ (l : List Nat) (j v : Nat), j < l.length →
    (l.set j v).sum + l.getD j 0 = l.sum + v
  | [], _, _, h => absurd h (by simp)
  | a :: l, 0, v, _ => by simp [List.sum_cons]; omega
  | a :: l, j + 1, v, h => by
    have ih := listSumSet l j v (by simpa using h)
    simp only [List.set_cons_succ, List.sum_cons, List.getD_cons_succ]
    omega

/-- Setting an index inside the left part of an append stays in the left part. -/
theorem listSetAppendLeft : ∀ (l₁ l₂ : List Nat) (j v : Nat), j < l₁.length →
    (l₁ ++ l₂).set j v = l₁.set j v ++ l₂
  | [], _, _, _, h => absurd h (by simp)
  | a :: l, l₂, 0, v, _ => by simp
  | a :: l, l₂, j + 1, v, h => by
    simp only [List.cons_append, List.set_cons_succ]
    rw [listSetAppendLeft l l₂ j v (by simpa using h)]

/-- An in-bounds `getD` of a byte list is a byte. -/
theorem listGetDLt (l : List Nat) (j : Nat) (h : j < l.length)
    (hb : ∀ b ∈ l, b < 256) : l.getD j 0 < 256 := by
  rw [List.getD_eq_getElem _ _ h]
  exact hb _ (l.getElem_mem h)

/-- C3: changing any single byte of an encoded packet at a position before
the trailing checksum-and-end-marker bytes to a different value makes
`_getResponse` reject the frame: a changed start marker fails the marker
check, a changed length byte breaks the declared-length/buffer-size
equality, and a changed command or payload byte shifts the recomputed
additive-complement checksum away from the transmitted one. -/
theorem flipped_byte_rejected (cmd : Nat) (payload packet : List Nat) (i v : Nat)
    (h1 : cmd < 256) (h2 : payload.length < 65536) (hb : ∀ b ∈ payload, b < 256)
    (hp : createCmdPacket cmd payload = .ok packet)
    (hi : i < packet.length - 3) (hv : v < 256) (hne : v ≠ packet.getD i 0) :
    getResponse (packet.set i v) = .error PyErr.hostError := by
  have hpk : packet = packetBytes cmd payload := by
    simp only [createCmdPacket] at hp
    rw [if_neg (by omega), if_neg (by omega)] at hp
    exact (Except.ok.inj hp).symm
  subst hpk
  rw [packetBytes_cons] at hi hne ⊢
  set n := payload.length with hn
  set ck := calcChecksum (1 :: cmd :: (leBytes 2 n ++ payload)) with hckdef
  have hck : ck < 65536 := calcChecksum_lt _
  have hckeq : ck =
      (65536 - (1 + (cmd + (n % 256 + (n / 256 % 256 + payload.sum)))) % 65536) % 65536 := by
    rw [hckdef]
    simp [calcChecksum, leBytes, List.sum_cons, hn]
  have hilt : i < n + 4 := by
    simp only [List.length_cons, List.length_append, List.length_nil] at hi
    omega
  have hlenPT : (payload ++ [ck % 256, ck / 256 % 256, 23]).length = n + 3 := by
    simp [← hn]
  have hg0PT : (payload ++ [ck % 256, ck / 256 % 256, 23]).getD n 0 = ck % 256 := by
    rw [List.getD_append_right _ _ _ _ (by omega)]
    rw [show n - payload.length = 0 from by omega]
    simp
  have hg1PT : (payload ++ [ck % 256, ck / 256 % 256, 23]).getD (n + 1) 0 = ck / 256 % 256 := by
    rw [List.getD_append_right _ _ _ _ (by omega)]
    rw [show n + 1 - payload.length = 1 from by omega]
    simp
  have hg2PT : (payload ++ [ck % 256, ck / 256 % 256, 23]).getD (n + 2) 0 = 23 := by
    rw [List.getD_append_right _ _ _ _ (by omega)]
    rw [show n + 2 - payload.length = 2 from by omega]
    simp
  have htakePT : (payload ++ [ck % 256, ck / 256 % 256, 23]).take n = payload :=
    List.take_left' hn.symm
  rcases i with _ | (_ | (_ | (_ | j)))
  · -- start-of-packet marker flipped
    have hne0 : v ≠ 1 := by simpa using hne
    simp only [List.set_cons_zero, getResponse]
    rw [leBytes_two_value n h2, if_pos hlenPT]
    rw [if_neg (fun hx => hne0 hx.1)]
  · -- command / status byte flipped: checksum mismatch
    have hne1 : v ≠ cmd := by simpa using hne
    simp only [List.set_cons_succ, List.set_cons_zero, getResponse]
    rw [leBytes_two_value n h2, if_pos hlenPT]
    rw [hg2PT, if_pos (show True ∧ (23 : Nat) = 23 from ⟨trivial, rfl⟩)]
    rw [hg0PT, hg1PT, htakePT]
    have hcc : ¬ (calcChecksum (1 :: v :: n % 256 :: n / 256 % 256 :: payload) =
        ck % 256 + 256 * (ck / 256 % 256)) := by
      rw [hckeq]
      simp only [calcChecksum, List.sum_cons]
      omega
    rw [if_neg hcc]
  · -- low length byte flipped: declared length no longer matches the buffer
    have hne2 : v ≠ n % 256 := by simpa using hne
    simp only [List.set_cons_succ, List.set_cons_zero, getResponse]
    have hcc : ¬ ((payload ++ [ck % 256, ck / 256 % 256, 23]).length =
        v + 256 * (n / 256 % 256) + 3) := by
      rw [hlenPT]
      omega
    rw [if_neg hcc]
  · -- high length byte flipped: declared length no longer matches the buffer
    have hne3 : v ≠ n / 256 % 256 := by simpa using hne
    simp only [List.set_cons_succ, List.set_cons_zero, getResponse]
    have hcc : ¬ ((payload ++ [ck % 256, ck / 256 % 256, 23]).length =
        n % 256 + 256 * v + 3) := by
      rw [hlenPT]
      omega
    rw [if_neg hcc]
  · -- payload byte flipped: checksum mismatch
    have hjlt : j < n := by omega
    have hjlt' : j < payload.length := by rw [← hn]; exact hjlt
    have hneJ : v ≠ payload.getD j 0 := by
      simp only [List.getD_cons_succ] at hne
      rwa [List.getD_append _ _ _ _ hjlt'] at hne
    have horig : payload.getD j 0 < 256 := listGetDLt payload j hjlt' hb
    have hsum := listSumSet payload j v hjlt'
    simp only [List.set_cons_succ, getResponse]
    rw [listSetAppendLeft payload _ j v hjlt']
    rw [leBytes_two_value n h2]
    have hlenS : (payload.set j v ++ [ck % 256, ck / 256 % 256, 23]).length = n + 3 := by
      simp [List.length_set, ← hn]
    rw [if_pos hlenS]
    have hlset : (payload.set j v).length ≤ n := by
      rw [List.length_set, ← hn]
    have hg2S : (payload.set j v ++ [ck % 256, ck / 256 % 256, 23]).getD (n + 2) 0 = 23 := by
      rw [List.getD_append_right _ _ _ _ (by omega)]
      rw [show n + 2 - (payload.set j v).length = 2 from by rw [List.length_set]; omega]
      simp
    have hg0S : (payload.set j v ++ [ck % 256, ck / 256 % 256, 23]).getD n 0 = ck % 256 := by
      rw [List.getD_append_right _ _ _ _ hlset]
      rw [show n - (payload.set j v).length = 0 from by rw [List.length_set]; omega]
      simp
    have hg1S : (payload.set j v ++ [ck % 256, ck / 256 % 256, 23]).getD (n + 1) 0 =
        ck / 256 % 256 := by
      rw [List.getD_append_right _ _ _ _ (by omega)]
      rw [show n + 1 - (payload.set j v).length = 1 from by rw [List.length_set]; omega]
      simp
    have htakeS : (payload.set j v ++ [ck % 256, ck / 256 % 256, 23]).take n =
        payload.set j v :=
      List.take_left' (by rw [List.length_set, ← hn])
    rw [hg2S, if_pos (show True ∧ (23 : Nat) = 23 from ⟨trivial, rfl⟩)]
    rw [hg0S, hg1S, htakeS]
    have hcc : ¬ (calcChecksum (1 :: cmd :: n % 256 :: n / 256 % 256 :: payload.set j v) =
        ck % 256 + 256 * (ck / 256 % 256)) := by
      rw [hckeq]
      simp only [calcChecksum, List.sum_cons]
      omega
    rw [if_neg hcc]

/-- Witness for C3: flipping payload byte `7` to `9` in the encoded packet
for command `0` with payload `[7]` makes decoding fail. -/
theorem flipped_byte_rejected_witness :
    getResponse (([1, 0, 1, 0, 7, 247, 255, 23].set 4 9 : List Nat)) =
      .error PyErr.hostError :=
  flipped_byte_rejected 0 [7] [1, 0, 1, 0, 7, 247, 255, 23] 4 9
    (by decide) (by decide) (by decide) (by rfl) (by decide) (by decide) (by decide)

/-- C4: the status interpreter maps `0x00` to success, the eight tabulated
codes to their eight named error kinds, and every other byte value to the
distinct `undefined` outcome, which is none of the eight named kinds and
not success. -/
theorem status_code_mapping :
    (checkStatusCode 0x00 = StatusKind.ok ∧
      checkStatusCode 0x02 = StatusKind.verifyError ∧
      checkStatusCode 0x03 = StatusKind.lengthError ∧
      checkStatusCode 0x04 = StatusKind.dataError ∧
      checkStatusCode 0x05 = StatusKind.commandError ∧
      checkStatusCode 0x08 = StatusKind.checksumError ∧
      checkStatusCode 0x0A = StatusKind.rowError ∧
      checkStatusCode 0x0B = StatusKind.rowAccessError ∧
      checkStatusCode 0x0F = StatusKind.unknownError) ∧
    (∀ c : Nat, c < 256 →
      c ∉ ([0x00, 0x02, 0x03, 0x04, 0x05, 0x08, 0x0A, 0x0B, 0x0F] : List Nat) →
      checkStatusCode c = StatusKind.undefined) ∧
    (StatusKind.undefined ≠ StatusKind.ok ∧
      StatusKind.undefined ≠ StatusKind.verifyError ∧
      StatusKind.undefined ≠ StatusKind.lengthError ∧
      StatusKind.undefined ≠ StatusKind.dataError ∧
      StatusKind.undefined ≠ StatusKind.commandError ∧
      StatusKind.undefined ≠ StatusKind.checksumError ∧
      StatusKind.undefined ≠ StatusKind.rowError ∧
      StatusKind.undefined ≠ StatusKind.rowAccessError ∧
      StatusKind.undefined ≠ StatusKind.unknownError) := by
  refine ⟨by decide, ?_, by decide⟩
  intro c _ hc
  simp only [List.mem_cons, List.mem_singleton, not_or] at hc
  obtain ⟨n0, n2, n3, n4, n5, n8, nA, nB, nF, _⟩ := hc
  simp only [checkStatusCode, if_neg n0, if_neg n2, if_neg n3, if_neg n4, if_neg n5,
    if_neg n8, if_neg nA, if_neg nB, if_neg nF]

/-- Witness for C4 at the out-of-table code `0x07`. -/
theorem status_code_mapping_witness : checkStatusCode 0x07 = StatusKind.undefined :=
  status_code_mapping.2.1 0x07 (by decide) (by decide)

/-- Embeds the response parsing of `DFUProtocol.enterDFU`:
`struct.unpack("<IBI", respData[:5] + bytes([0]) + respData[5:])`.  The unpack
format needs exactly 9 bytes, so after the one-byte zero insertion the
transmitted response payload must be exactly 8 bytes; otherwise
`struct.error` is raised. -/
def parseEnterDFUResp (respData : List Nat) : Except PyErr (Nat × Nat × Nat) :=
  let padded := respData.take 5 ++ 0 :: respData.drop 5
  if padded.length = 9 then
    .ok (leValue (padded.take 4), padded.getD 4 0, leValue ((padded.drop 5).take 4))
  else .error .structError

/-- C5 counterexample: a 9-byte response payload is not decoded into the
three fields; after the one-byte zero insertion the `"<IBI"` unpack sees 10
bytes and raises `struct.error`, so the decoder does not assemble 9
transmitted bytes. -/
theorem enterDFU_nine_byte_resp_rejected :
    parseEnterDFUResp [1, 2, 3, 4, 5, 6, 7, 8, 9] = .error PyErr.structError := by
  rfl

/-- C5 (amended): `enterDFU` encodes `productID` as a 4-byte little-endian
payload, and the response decoder accepts exactly 8 transmitted bytes,
inserting a zero byte after the first five, so `jtagID` is the little-endian
`u32` of bytes 0-3, `deviceRev` is byte 4, and `dfuSdkVersion` is `256`
times the little-endian value of the 3 transmitted bytes 5-7. -/
theorem enterDFU_encode_decode (pid : Nat) (respData : List Nat)
    (hpid : pid < 4294967296) (hlen : respData.length = 8) :
    packU 4 pid =
      .ok [pid % 256, pid / 256 % 256, pid / 65536 % 256, pid / 16777216 % 256] ∧
    parseEnterDFUResp respData =
      .ok (leValue (respData.take 4), respData.getD 4 0,
        256 * leValue ((respData.drop 5).take 3)) := by
  constructor
  · rw [packU, if_pos (by norm_num; omega)]
    simp [leBytes, Nat.div_div_eq_div_mul]
  · have ht5 : (respData.take 5).length = 5 := by simp [hlen]
    rw [parseEnterDFUResp]
    rw [if_pos (by simp [hlen])]
    have htk4 : (respData.take 5 ++ 0 :: respData.drop 5).take 4 = respData.take 4 := by
      rw [List.take_append_of_le_length (by omega)]
      rw [List.take_take]
      norm_num
    have hgd4 : (respData.take 5 ++ 0 :: respData.drop 5).getD 4 0 = respData.getD 4 0 := by
      rw [List.getD_append _ _ _ _ (by omega)]
      rw [List.getD_eq_getElem _ _ (by omega), List.getD_eq_getElem _ _ (by omega)]
      exact List.getElem_take ..
    have hdr5 : (respData.take 5 ++ 0 :: respData.drop 5).drop 5 = 0 :: respData.drop 5 :=
      List.drop_left' ht5
    rw [htk4, hgd4, hdr5]
    simp [leValue]

/-- Witness for C5 (amended) at `pid = 3` and the response payload
`[1, 2, 3, 4, 5, 6, 7, 8]`. -/
theorem enterDFU_encode_decode_witness :
    packU 4 3 = .ok [3 % 256, 3 / 256 % 256, 3 / 65536 % 256, 3 / 16777216 % 256] ∧
    parseEnterDFUResp [1, 2, 3, 4, 5, 6, 7, 8] =
      .ok (leValue ([1, 2, 3, 4, 5, 6, 7, 8].take 4),
        [1, 2, 3, 4, 5, 6, 7, 8].getD 4 0,
        256 * leValue (([1, 2, 3, 4, 5, 6, 7, 8].drop 5).take 3)) :=
  enterDFU_encode_decode 3 [1, 2, 3, 4, 5, 6, 7, 8] (by decide) (by decide)

/-- Value of one hexadecimal digit, as accepted by `bytes.fromhex`. -/
def hexVal (c : Char) : Option Nat :=
  if '0' ≤ c ∧ c ≤ '9' then some (c.toNat - '0'.toNat)
  else if 'a' ≤ c ∧ c ≤ 'f' then some (c.toNat - 'a'.toNat + 10)
  else if 'A' ≤ c ∧ c ≤ 'F' then some (c.toNat - 'A'.toNat + 10)
  else none

/-- Embeds `bytes.fromhex` on a whitespace-free argument: consecutive pairs
of hex digits become bytes; an odd number of digits or a non-hex character
raises `ValueError`. -/
def hexDecode : List Char → Option (List Nat)
  | [] => some []
  | [_] => none
  | c1 :: c2 :: rest =>
    match hexVal c1, hexVal c2, hexDecode rest with
    | some hi, some lo, some t => some ((16 * hi + lo) :: t)
    | _, _, _ => none

/-- Whitespace removed by `str.strip`. -/
def isSpaceChar (c : Char) : Bool :=
  c = ' ' || c = '\t' || c = '\n' || c = '\r' || c = '\x0b' || c = '\x0c'

/-- Embeds `str.strip()`: removes leading and trailing whitespace. -/
def stripChars (s : List Char) : List Char :=
  ((s.dropWhile isSpaceChar).reverse.dropWhile isSpaceChar).reverse

/-- Embeds `str.split(sep)`: full split on every occurrence of `sep`; the
result is never empty. -/
def splitChar (sep : Char) : List Char → List (List Char)
  | [] => [[]]
  | c :: rest =>
    match splitChar sep rest with
    | [] => [[]]
    | h :: t => if c = sep then [] :: h :: t else (c :: h) :: t

/-- One step of an accumulating hex-literal read for `int(s, 0)`. -/
def hexDigitsVal : Nat → List Char → Option Nat
  | acc, [] => some acc
  | acc, c :: rest =>
    match hexVal c with
    | some d => hexDigitsVal (acc * 16 + d) rest
    | none => none

/-- Value of one decimal digit. -/
def decVal (c : Char) : Option Nat :=
  if '0' ≤ c ∧ c ≤ '9' then some (c.toNat - '0'.toNat) else none

/-- One step of an accumulating decimal read for `int(s, 0)`. -/
def decDigitsVal : Nat → List Char → Option Nat
  | acc, [] => some acc
  | acc, c :: rest =>
    match decVal c with
    | some d => decDigitsVal (acc * 10 + d) rest
    | none => none

/-- Embeds `int(s, 0)` for the unsigned literal forms that occur in cyacd2
app-info fields: a `0x`/`0X` prefix selects hexadecimal, otherwise the
characters are decimal digits; an empty or malformed literal raises
`ValueError`. -/
def parseIntLit : List Char → Option Nat
  | [] => none
  | '0' :: 'x' :: rest => if rest = [] then none else hexDigitsVal 0 rest
  | '0' :: 'X' :: rest => if rest = [] then none else hexDigitsVal 0 rest
  | cs => decDigitsVal 0 cs

/-- The body of `Application.getNextRow` on a single line: check the
leading `:` row marker (an empty line would raise `IndexError` at `row[0]`),
take the part after the first colon, strip it, hex-decode it
(`ValueError` on bad hex), and unpack `"<I{n}s"`: a 4-byte little-endian
address followed by the row data (`struct.error` when fewer than 4 bytes
decode). -/
def decodeLineE (line : String) : Except PyErr (Nat × List Nat) :=
  match line.data with
  | [] => .error .indexError
  | c :: rest =>
    if c = ':' then
      match hexDecode (stripChars rest) with
      | none => .error .valueError
      | some row =>
        if 4 ≤ row.length then .ok (leValue (row.take 4), row.drop 4)
        else .error .structError
    else .error .invalidApplicationFile

/-- State of a `cydfu.Application` object after `__init__`: the header and
app-info fields, the data-row count, the row cursor and the remaining
unconsumed lines of the file. -/
structure AppState where
  fileVersion : Nat
  siliconID : Nat
  siliconRevision : Nat
  checksumType : Nat
  appID : Nat
  productID : Nat
  startAddr : Nat
  length : Nat
  numRows : Nat
  currRow : Nat
  lines : List String

/-- Embeds `Application.getNextRow`: `next` on an exhausted file raises
`StopIteration`; otherwise the line is decoded and the row cursor advances. -/
def getNextRow (a : AppState) : Except PyErr ((Nat × List Nat) × AppState) :=
  match a.lines with
  | [] => .error .stopIteration
  | line :: rest =>
    match decodeLineE line with
    | .error e => .error e
    | .ok r => .ok (r, { a with lines := rest, currRow := a.currRow + 1 })

/-- Reads `k` successive rows through `Application.getNextRow`. -/
def readRows (a : AppState) : Nat → Except PyErr (List (Nat × List Nat) × AppState)
  | 0 => .ok ([], a)
  | k + 1 =>
    match getNextRow a with
    | .error e => .error e
    | .ok (r, a') =>
      match readRows a' k with
      | .error e => .error e
      | .ok (rs, a'') => .ok (r :: rs, a'')

/-- Embeds `Application.__init__` together with `getHeader` and
`getAppInfo`: the `.cyacd2` extension check (`InvalidFileType`), the line
count, the header line (hex-decode, exactly 12 raw bytes, unpack
`"<BIBBBI"`), and the app-info line (strip, split on `:`, `@APPINFO` label
check, split of the metadata on `,` into exactly two integer literals). -/
def appInit (path : String) (fileLines : List String) : Except PyErr AppState :=
  if ".cyacd2".data.isSuffixOf path.data then
    match fileLines with
    | [] => .error .stopIteration
    | headerLine :: rest1 =>
      match hexDecode (stripChars headerLine.data) with
      | none => .error .valueError
      | some header =>
        if header.length ≠ 12 then .error .invalidApplicationFile
        else
          match rest1 with
          | [] => .error .stopIteration
          | infoLine :: rest2 =>
            let parts := splitChar ':' (stripChars infoLine.data)
            if parts.getD 0 [] ≠ "@APPINFO".data then .error .invalidApplicationFile
            else
              match parts.get? 1 with
              | none => .error .indexError
              | some meta =>
                match splitChar ',' meta with
                | [sA, sL] =>
                  match parseIntLit sA, parseIntLit sL with
                  | some sa, some sl =>
                    .ok { fileVersion := header.getD 0 0,
                          siliconID := leValue ((header.drop 1).take 4),
                          siliconRevision := header.getD 5 0,
                          checksumType := header.getD 6 0,
                          appID := header.getD 7 0,
                          productID := leValue ((header.drop 8).take 4),
                          startAddr := sa,
                          length := sl,
                          numRows := fileLines.length - 2,
                          currRow := 0,
                          lines := rest2 }
                  | _, _ => .error .valueError
                | _ => .error .valueError
  else .error .invalidFileType

/-- C6 counterexample: the data line `:0000100008AB` decodes, under the
little-endian `"<I"` address unpack, to the row
`(address = 0x00100000, data = [0x08, 0xAB])`; its address is not the
claimed `0x00001000`. -/
theorem row_example_line_address :
    decodeLineE ":0000100008AB" = .ok (0x00100000, [0x08, 0xAB]) ∧
      (0x00100000 : Nat) ≠ 0x00001000 :=
  ⟨by rfl, by decide⟩

/-- The row a well-formed data line decodes to. -/
def decodedRow (l : String) : Nat × List Nat :=
  match decodeLineE l with
  | .ok r => r
  | .error _ => (0, [])

/-- Reading as many rows as there are remaining lines, when every line is
well formed, yields the per-line rows in file order and consumes all the
lines while advancing the cursor once per row. -/
theorem readRowsAll : ∀ (ls : List String) (a : AppState), a.lines = ls →
    (∀ l ∈ ls, ∃ r, decodeLineE l = .ok r) →
    readRows a ls.length =
      .ok (ls.map decodedRow,
        { a with lines := [], currRow := a.currRow + ls.length }) := by
  intro ls
  induction ls with
  | nil =>
    intro a ha _
    obtain ⟨f1, f2, f3, f4, f5, f6, f7, f8, f9, f10, f11⟩ := a
    simp only at ha
    subst ha
    simp [readRows]
  | cons l rest ih =>
    intro a ha hw
    obtain ⟨r, hr⟩ := hw l (by simp)
    have hstep : getNextRow a =
        .ok (r, { a with lines := rest, currRow := a.currRow + 1 }) := by
      simp only [getNextRow, ha, hr]
    have htail := ih { a with lines := rest, currRow := a.currRow + 1 } rfl
      (fun l' hl' => hw l' (by simp [hl']))
    simp only [List.length_cons, readRows, hstep, htail, List.map_cons]
    have hc : a.currRow + 1 + rest.length = a.currRow + (rest.length + 1) := by omega
    rw [hc]
    simp [decodedRow, hr]

/-- C6 (amended): for a well-formed image state reading `numRows` rows
yields exactly that many `(address, data)` rows in file order followed by
end-of-data, incrementing the row cursor once per successful read; each
line after the `:` marker is hex-decoded, the first 4 bytes forming a
little-endian address and the rest the row data, so the line
`:0000100008AB` yields `(address = 0x00100000, data = [0x08, 0xAB])`. -/
theorem row_sequencing (a : AppState) (hn : a.numRows = a.lines.length)
    (hw : ∀ l ∈ a.lines, ∃ r, decodeLineE l = .ok r) :
    readRows a a.numRows =
      .ok (a.lines.map decodedRow,
        { a with lines := [], currRow := a.currRow + a.numRows }) ∧
    getNextRow { a with lines := [], currRow := a.currRow + a.numRows } =
      .error PyErr.stopIteration ∧
    decodeLineE ":0000100008AB" = .ok (0x00100000, [0x08, 0xAB]) := by
  refine ⟨?_, rfl, rfl⟩
  have h := readRowsAll a.lines a rfl hw
  rw [← hn] at h
  exact h

/-- Witness for C6 (amended) on a one-row image state. -/
theorem row_sequencing_witness :
    readRows (AppState.mk 1 2 3 4 5 6 7 8 1 0 [":0000100008AB"]) 1 =
      .ok ([":0000100008AB"].map decodedRow,
        AppState.mk 1 2 3 4 5 6 7 8 1 (0 + 1) []) ∧
    getNextRow (AppState.mk 1 2 3 4 5 6 7 8 1 (0 + 1) []) =
      .error PyErr.stopIteration ∧
    decodeLineE ":0000100008AB" = .ok (0x00100000, [0x08, 0xAB]) :=
  row_sequencing (AppState.mk 1 2 3 4 5 6 7 8 1 0 [":0000100008AB"])
    (by simp)
    (fun l hl => by
      simp only [List.mem_singleton] at hl
      exact hl ▸ ⟨(0x00100000, [0x08, 0xAB]), rfl⟩)

/-- C7 counterexample: opening a correctly named but empty image fails with
`StopIteration` escaping the header read, not with
`InvalidApplicationFile` as the claim states for an absent line. -/
theorem open_empty_image_error :
    appInit "a.cyacd2" [] = .error PyErr.stopIteration ∧
      PyErr.stopIteration ≠ PyErr.invalidApplicationFile :=
  ⟨by rfl, by decide⟩

/-- C7 (amended): opening fails with `InvalidFileType` whenever the path
does not end in `.cyacd2`; it fails with `InvalidApplicationFile` whenever
the present header line hex-decodes to other than exactly 12 raw bytes, or
the present app-info line's first `:`-separated token differs from
`@APPINFO`; when either of those two lines is absent the failure is the
end-of-data error `StopIteration`, not `InvalidApplicationFile`. -/
theorem open_validation :
    (∀ (path : String) (fileLines : List String),
      ".cyacd2".data.isSuffixOf path.data = false →
      appInit path fileLines = .error PyErr.invalidFileType) ∧
    (∀ (path h : String) (rest : List String) (hd : List Nat),
      ".cyacd2".data.isSuffixOf path.data = true →
      hexDecode (stripChars h.data) = some hd → hd.length ≠ 12 →
      appInit path (h :: rest) = .error PyErr.invalidApplicationFile) ∧
    (∀ (path h info : String) (rest : List String) (hd : List Nat),
      ".cyacd2".data.isSuffixOf path.data = true →
      hexDecode (stripChars h.data) = some hd → hd.length = 12 →
      (splitChar ':' (stripChars info.data)).getD 0 [] ≠ "@APPINFO".data →
      appInit path (h :: info :: rest) = .error PyErr.invalidApplicationFile) ∧
    (∀ path : String, ".cyacd2".data.isSuffixOf path.data = true →
      appInit path [] = .error PyErr.stopIteration) ∧
    (∀ (path h : String) (hd : List Nat),
      ".cyacd2".data.isSuffixOf path.data = true →
      hexDecode (stripChars h.data) = some hd → hd.length = 12 →
      appInit path [h] = .error PyErr.stopIteration) := by
  refine ⟨?_, ?_, ?_, ?_, ?_⟩
  · intro path fileLines hs
    simp [appInit, hs]
  · intro path h rest hd hs hhx hlen
    simp [appInit, hs, hhx, hlen]
  · intro path h info rest hd hs hhx hlen hlabel
    simp [appInit, hs, hhx, hlen]
    intro heq
    exact absurd heq (by simpa using hlabel)
  · intro path hs
    simp [appInit, hs]
  · intro path h hd hs hhx hlen
    simp [appInit, hs, hhx, hlen]

/-- Witness for C7 (amended) on concrete paths and lines. -/
theorem open_validation_witness :
    appInit "a.txt" [] = .error PyErr.invalidFileType ∧
    appInit "a.cyacd2" ["00"] = .error PyErr.invalidApplicationFile ∧
    appInit "a.cyacd2" ["000000000000000000000000", "xx"] =
      .error PyErr.invalidApplicationFile ∧
    appInit "a.cyacd2" [] = .error PyErr.stopIteration ∧
    appInit "a.cyacd2" ["000000000000000000000000"] = .error PyErr.stopIteration :=
  ⟨open_validation.1 "a.txt" [] (by decide),
   open_validation.2.1 "a.cyacd2" "00" [] [0] (by decide) (by decide) (by decide),
   open_validation.2.2.1 "a.cyacd2" "000000000000000000000000" "xx" []
     [0, 0, 0, 0, 0, 0, 0, 0, 0, 0, 0, 0] (by decide) (by decide) (by decide) (by decide),
   open_validation.2.2.2.1 "a.cyacd2" (by decide),
   open_validation.2.2.2.2 "a.cyacd2" "000000000000000000000000"
     [0, 0, 0, 0, 0, 0, 0, 0, 0, 0, 0, 0] (by decide) (by decide) (by decide)⟩

/-- The protocol commands recorded from `Target.updateFirmware`, one
constructor per `DFUProtocol` method the orchestrator invokes. -/
inductive Cmd where
  | enterDFU (productID : Nat)
  | setApplicationMetadata (appNum startAddr appLength : Nat)
  | sendData (data : List Nat)
  | programData (rowAddr crc : Nat) (data : List Nat)
  | verifyApplication (appNum : Nat)
  | exitDFU
deriving DecidableEq

/-- Embeds `DFUProtocol._sendCommandGetResponse` against a transport
function from the written command packet to the notification bytes
(`none` models a missed notification): create the packet, send it, decode
the reply frame and check its status code. -/
def sendCommandGetResponse (transport : List Nat → Option (List Nat))
    (cmd : Nat) (payload : List Nat) : Except PyErr (List Nat) :=
  match createCmdPacket cmd payload with
  | .error e => .error e
  | .ok packet =>
    match transport packet with
    | none => .error .hostError
    | some resp =>
      match getResponse resp with
      | .error e => .error e
      | .ok (statusCode, respData) =>
        match checkStatusCode statusCode with
        | .ok => .ok respData
        | .undefined => .error .unexpected
        | _ => .error (.dfu statusCode)

/-- Embeds the chunking list comprehension of `Target.updateFirmware`:
`[rowData[i:i+maxDataLength] for i in range(0, len(rowData), maxDataLength)]`
(empty for empty data; `range` needs a nonzero step). -/
def chunks (data : List Nat) (k : Nat) : List (List Nat) :=
  if h : data = [] ∨ k = 0 then []
  else data.take k :: chunks (data.drop k) k
termination_by data.length
decreasing_by
  simp only [List.length_drop]
  have hd : data ≠ [] := fun hh => h (Or.inl hh)
  have hk : k ≠ 0 := fun hh => h (Or.inr hh)
  have := List.length_pos.mpr hd
  omega

/-- The lengths of the chunks that splitting `n` bytes at size `k` yields. -/
def chunkSizes (n k : Nat) : List Nat :=
  if n = 0 ∨ k = 0 then []
  else min k n :: chunkSizes (n - k) k
termination_by n
decreasing_by omega

/-- The chunk lengths depend only on the data length. -/
theorem chunks_map_length : ∀ (n : Nat) (data : List Nat), data.length ≤ n → ∀ k,
    (chunks data k).map List.length = chunkSizes data.length k := by
  intro n
  induction n with
  | zero =>
    intro data hd k
    have : data = [] := List.eq_nil_of_length_eq_zero (by omega)
    subst this
    rw [chunks, dif_pos (Or.inl rfl), chunkSizes]
    simp
  | succ m ih =>
    intro data hd k
    by_cases hdat : data = []
    · subst hdat
      rw [chunks, dif_pos (Or.inl rfl), chunkSizes]
      simp
    by_cases hk : k = 0
    · subst hk
      rw [chunks, dif_pos (Or.inr rfl), chunkSizes, if_pos (Or.inr rfl)]
      simp
    have hpos : 0 < data.length := List.length_pos.mpr hdat
    rw [chunks, dif_neg (by tauto), chunkSizes, if_neg (by omega)]
    simp only [List.map_cons, List.length_take]
    have htail := ih (data.drop k) (by simp; omega) k
    rw [htail, List.length_drop]

/-- The chunks concatenate back to the row data. -/
theorem chunks_flatten : ∀ (n : Nat) (data : List Nat), data.length ≤ n → ∀ k, 0 < k →
    (chunks data k).flatten = data := by
  intro n
  induction n with
  | zero =>
    intro data hd k hk
    have : data = [] := List.eq_nil_of_length_eq_zero (by omega)
    subst this
    rw [chunks, dif_pos (Or.inl rfl)]
    simp
  | succ m ih =>
    intro data hd k hk
    by_cases hdat : data = []
    · subst hdat
      rw [chunks, dif_pos (Or.inl rfl)]
      simp
    have hpos : 0 < data.length := List.length_pos.mpr hdat
    have hkne : k ≠ 0 := by omega
    rw [chunks, dif_neg (by tauto)]
    rw [List.flatten_cons]
    rw [ih (data.drop k) (by simp; omega) k hk]
    exact List.take_append_drop k data

/-- A nonempty row that fits one chunk produces exactly one chunk: itself. -/
theorem chunks_single (data : List Nat) (k : Nat) (h0 : data ≠ [])
    (hk : data.length ≤ k) : chunks data k = [data] := by
  have hkne : k ≠ 0 := by
    intro hh
    subst hh
    exact h0 (List.eq_nil_of_length_eq_zero (by omega))
  rw [chunks, dif_neg (by tauto)]
  rw [List.take_of_length_le hk, List.drop_eq_nil_of_le hk]
  rw [chunks, dif_pos (Or.inl rfl)]

/-- The `for chunk in rowData[:-1]: hostCmd.sendData(chunk)` loop: each
chunk goes out as a Send Data command (0x37) and is recorded in order. -/
def sendDataChunks (transport : List Nat → Option (List Nat)) :
    List (List Nat) → Except PyErr (List Cmd)
  | [] => .ok []
  | c :: rest =>
    match sendCommandGetResponse transport 0x37 c with
    | .error e => .error e
    | .ok _ =>
      match sendDataChunks transport rest with
      | .error e => .error e
      | .ok tr => .ok (Cmd.sendData c :: tr)

/-- The body of the row loop of `Target.updateFirmware` for one decoded
row: CRC over the whole row data, chunking, Send Data for every chunk but
the last, then Program Data (0x49, payload `"<II"` of row address and CRC
followed by the chunk) for the last; `rowData[-1]` on an empty chunk list
raises `IndexError`. -/
def sendRow (transport : List Nat → Option (List Nat)) (crcFun : List Nat → Nat)
    (maxDataLength : Nat) (rowAddr : Nat) (rowData : List Nat) :
    Except PyErr (List Cmd) :=
  let crc := crcFun rowData
  let cks := chunks rowData maxDataLength
  match sendDataChunks transport cks.dropLast with
  | .error e => .error e
  | .ok tr =>
    match cks.getLast? with
    | none => .error .indexError
    | some lastChunk =>
      match packU 4 rowAddr, packU 4 crc with
      | .ok ab, .ok cb =>
        match sendCommandGetResponse transport 0x49 (ab ++ cb ++ lastChunk) with
        | .error e => .error e
        | .ok _ => .ok (tr ++ [Cmd.programData rowAddr crc lastChunk])
      | _, _ => .error .structError

/-- The `while True` row loop of `Target.updateFirmware`: every exception
from `Application.getNextRow` (end of data and malformed rows alike) just
breaks the loop, while failures of the send commands propagate. -/
def sendRows (transport : List Nat → Option (List Nat)) (crcFun : List Nat → Nat)
    (maxDataLength : Nat) : List String → Except PyErr (List Cmd)
  | [] => .ok []
  | line :: rest =>
    match decodeLineE line with
    | .error _ => .ok []
    | .ok (rowAddr, rowData) =>
      match sendRow transport crcFun maxDataLength rowAddr rowData with
      | .error e => .error e
      | .ok tr =>
        match sendRows transport crcFun maxDataLength rest with
        | .error e => .error e
        | .ok tr2 => .ok (tr ++ tr2)

/-- Embeds `Target.updateFirmware`: Enter DFU with the product ID, Set
Application Metadata (`"<BII"`), the row loop, Verify Application (the
source reads the image through the module-level `fwImg` name, which at the
only call site is the same object as `app`, with `"<B"` of the app number
and a 1-byte `"<B"` reply), and the unacknowledged Exit DFU.  The result
is the issued command trace and whether the verify reply equals 1, which
the source reports as a valid application. -/
def updateFirmware (transport : List Nat → Option (List Nat))
    (crcFun : List Nat → Nat) (app : AppState) (maxDataLength : Nat) :
    Except PyErr (List Cmd × Bool) :=
  match packU 4 app.productID with
  | .error e => .error e
  | .ok pidBytes =>
    match sendCommandGetResponse transport 0x38 pidBytes with
    | .error e => .error e
    | .ok resp1 =>
      match parseEnterDFUResp resp1 with
      | .error e => .error e
      | .ok _ =>
        match packU 1 app.appID, packU 4 app.startAddr, packU 4 app.length with
        | .ok b1, .ok b2, .ok b3 =>
          match sendCommandGetResponse transport 0x4C (b1 ++ b2 ++ b3) with
          | .error e => .error e
          | .ok _ =>
            match sendRows transport crcFun maxDataLength app.lines with
            | .error e => .error e
            | .ok rowTrace =>
              match packU 1 app.appID with
              | .error e => .error e
              | .ok vb =>
                match sendCommandGetResponse transport 0x31 vb with
                | .error e => .error e
                | .ok resp2 =>
                  match resp2 with
                  | [r] =>
                    .ok (Cmd.enterDFU app.productID ::
                      Cmd.setApplicationMetadata app.appID app.startAddr app.length ::
                      (rowTrace ++ [Cmd.verifyApplication app.appID, Cmd.exitDFU]),
                      r == 1)
                  | _ => .error .structError
        | _, _, _ => .error .structError

/-- Success path of `_sendCommandGetResponse` when the transport answers
with a well-formed zero-status frame. -/
theorem sendCommandGetResponse_ok (transport : List Nat → Option (List Nat))
    (cmd : Nat) (payload respPayload : List Nat)
    (hc : cmd < 256) (hp : payload.length < 65536) (hr : respPayload.length < 65536)
    (ht : transport (packetBytes cmd payload) = some (packetBytes 0 respPayload)) :
    sendCommandGetResponse transport cmd payload = .ok respPayload := by
  have hcp : createCmdPacket cmd payload = .ok (packetBytes cmd payload) := by
    rw [createCmdPacket, if_neg (by omega), if_neg (by omega)]
  simp only [sendCommandGetResponse, hcp, ht, getResponse_packetBytes 0 respPayload hr]
  simp [checkStatusCode]

/-- `leBytes` always produces exactly `w` bytes. -/
theorem leBytes_length : ∀ (w n : Nat), (leBytes w n).length = w
  | 0, _ => rfl
  | w + 1, n => by
    simp only [leBytes, List.length_cons]
    rw [leBytes_length w (n / 256)]

/-- Sending a list of chunks on an always-acknowledging transport succeeds
and records one Send Data command per chunk, in order. -/
theorem sendDataChunks_ok (transport : List Nat → Option (List Nat))
    (cs : List (List Nat))
    (htr : ∀ p, transport p = some (packetBytes 0 []))
    (hlen : ∀ c ∈ cs, c.length < 65536) :
    sendDataChunks transport cs = .ok (cs.map Cmd.sendData) := by
  induction cs with
  | nil => rfl
  | cons c rest ih =>
    have hc := sendCommandGetResponse_ok transport 0x37 c []
      (by omega) (hlen c (by simp)) (by simp) (htr _)
    have hrest := ih (fun c' hc' => hlen c' (by simp [hc']))
    simp only [sendDataChunks, hc, hrest, List.map_cons]

/-- Every chunk the splitter produces is at most the chunk size long. -/
theorem chunks_length_le : ∀ (n : Nat) (data : List Nat), data.length ≤ n → ∀ k,
    ∀ c ∈ chunks data k, c.length ≤ k := by
  intro n
  induction n with
  | zero =>
    intro data hd k c hc
    have : data = [] := List.eq_nil_of_length_eq_zero (by omega)
    subst this
    rw [chunks, dif_pos (Or.inl rfl)] at hc
    simp at hc
  | succ m ih =>
    intro data hd k c hc
    by_cases hdat : data = []
    · subst hdat
      rw [chunks, dif_pos (Or.inl rfl)] at hc
      simp at hc
    by_cases hk : k = 0
    · subst hk
      rw [chunks, dif_pos (Or.inr rfl)] at hc
      simp at hc
    have hpos : 0 < data.length := List.length_pos.mpr hdat
    rw [chunks, dif_neg (by tauto)] at hc
    rcases List.mem_cons.mp hc with h | h
    · subst h
      rw [List.length_take]
      omega
    · exact ih (data.drop k) (by simp; omega) k c h

/-- Splitting a nonempty row at a nonzero chunk size yields at least one
chunk. -/
theorem chunks_ne_nil (data : List Nat) (k : Nat) (h0 : data ≠ []) (hk : k ≠ 0) :
    chunks data k ≠ [] := by
  rw [chunks, dif_neg (by tauto)]
  simp

/-- A nonempty chunk list has its defaulted last element as optional last
element. -/
theorem getLast?_eq_getLastD (l : List (List Nat)) (h : l ≠ []) :
    l.getLast? = some (l.getLastD []) := by
  rw [List.getLast?_eq_getLast l h, List.getLastD_eq_getLast?,
    List.getLast?_eq_getLast l h]
  rfl

/-- C8: for every row, the loop body computes the CRC once, over the
entire row data, before any chunking, and hands exactly that value to
Program Data; the chunks concatenate back to the row and each is at most
`maxDataLength` long; every chunk except the last goes out via Send Data
and the last via Program Data with the row address and the whole-row CRC;
in particular a 1300-byte row with `maxDataLength = 512` produces exactly
the chunk sizes 512, 512 and 276. -/
theorem row_chunking (transport : List Nat → Option (List Nat))
    (crcFun : List Nat → Nat) (maxDataLength addr : Nat) (rowData : List Nat)
    (htr : ∀ p, transport p = some (packetBytes 0 []))
    (h0 : rowData ≠ []) (hk : 0 < maxDataLength) (hkb : maxDataLength + 8 < 65536)
    (haddr : addr < 4294967296) (hcrc : crcFun rowData < 4294967296) :
    (chunks rowData maxDataLength).flatten = rowData ∧
    (∀ c ∈ chunks rowData maxDataLength, c.length ≤ maxDataLength) ∧
    sendRow transport crcFun maxDataLength addr rowData =
      .ok ((chunks rowData maxDataLength).dropLast.map Cmd.sendData ++
        [Cmd.programData addr (crcFun rowData)
          ((chunks rowData maxDataLength).getLastD [])]) ∧
    (rowData.length = 1300 → maxDataLength = 512 →
      (chunks rowData maxDataLength).map List.length = [512, 512, 276]) := by
  have hfl : (chunks rowData maxDataLength).flatten = rowData :=
    chunks_flatten rowData.length rowData (le_refl _) maxDataLength hk
  have hcl : ∀ c ∈ chunks rowData maxDataLength, c.length ≤ maxDataLength :=
    chunks_length_le rowData.length rowData (le_refl _) maxDataLength
  have hne : chunks rowData maxDataLength ≠ [] :=
    chunks_ne_nil rowData maxDataLength h0 (by omega)
  have hlast : (chunks rowData maxDataLength).getLast? =
      some ((chunks rowData maxDataLength).getLastD []) :=
    getLast?_eq_getLastD _ hne
  have hlastlen : ((chunks rowData maxDataLength).getLastD []).length ≤ maxDataLength :=
    hcl _ (List.mem_of_getLast?_eq_some hlast)
  have hsend : sendDataChunks transport (chunks rowData maxDataLength).dropLast =
      .ok ((chunks rowData maxDataLength).dropLast.map Cmd.sendData) :=
    sendDataChunks_ok transport _ htr
      (fun c hc => by
        have := hcl c (List.dropLast_subset _ hc)
        omega)
  have hpa : packU 4 addr = .ok (leBytes 4 addr) := by
    rw [packU, if_pos (by norm_num; omega)]
  have hpc : packU 4 (crcFun rowData) = .ok (leBytes 4 (crcFun rowData)) := by
    rw [packU, if_pos (by norm_num; omega)]
  have hprog := sendCommandGetResponse_ok transport 0x49
    (leBytes 4 addr ++ leBytes 4 (crcFun rowData) ++
      (chunks rowData maxDataLength).getLastD []) []
    (by omega)
    (by rw [List.length_append, List.length_append, leBytes_length, leBytes_length]; omega)
    (by simp)
    (htr _)
  refine ⟨hfl, hcl, ?_, ?_⟩
  · simp only [sendRow, hsend, hlast, hpa, hpc, hprog]
  · intro h1300 h512
    subst h512
    have hml : (chunks rowData 512).map List.length = chunkSizes rowData.length 512 :=
      chunks_map_length rowData.length rowData (le_refl _) 512
    rw [h1300] at hml
    rw [hml]
    rw [chunkSizes, if_neg (by omega)]
    rw [chunkSizes, if_neg (by omega)]
    rw [chunkSizes, if_neg (by omega)]
    rw [chunkSizes, if_pos (by omega)]
    norm_num

/-- Witness for C8 on a concrete 1300-byte row, an always-acknowledging
transport and the orchestration default chunk size 512. -/
theorem row_chunking_witness :
    (chunks (List.replicate 1300 0) 512).flatten = List.replicate 1300 0 ∧
    sendRow (fun _ => some (packetBytes 0 [])) (fun _ => 0) 512 0
        (List.replicate 1300 0) =
      .ok ((chunks (List.replicate 1300 0) 512).dropLast.map Cmd.sendData ++
        [Cmd.programData 0 0 ((chunks (List.replicate 1300 0) 512).getLastD [])]) ∧
    (chunks (List.replicate 1300 0) 512).map List.length = [512, 512, 276] :=
  ⟨(row_chunking (fun _ => some (packetBytes 0 [])) (fun _ => 0) 512 0
      (List.replicate 1300 0) (fun _ => rfl)
      (by apply List.ne_nil_of_length_pos; rw [List.length_replicate]; omega)
      (by decide) (by decide) (by decide) (by decide)).1,
   (row_chunking (fun _ => some (packetBytes 0 [])) (fun _ => 0) 512 0
      (List.replicate 1300 0) (fun _ => rfl)
      (by apply List.ne_nil_of_length_pos; rw [List.length_replicate]; omega)
      (by decide) (by decide) (by decide) (by decide)).2.2.1,
   (row_chunking (fun _ => some (packetBytes 0 [])) (fun _ => 0) 512 0
      (List.replicate 1300 0) (fun _ => rfl)
      (by apply List.ne_nil_of_length_pos; rw [List.length_replicate]; omega)
      (by decide) (by decide) (by decide) (by decide)).2.2.2
     (by rw [List.length_replicate]) rfl⟩

/-- A nonempty row that fits in a single chunk is sent with one Program
Data command carrying the whole-row CRC. -/
theorem sendRow_single (transport : List Nat → Option (List Nat))
    (crcFun : List Nat → Nat) (maxDataLength addr : Nat) (data : List Nat)
    (h0 : data ≠ []) (hfit : data.length ≤ maxDataLength)
    (haddr : addr < 4294967296) (hcrc : crcFun data < 4294967296)
    (h8 : data.length + 8 < 65536)
    (ht : transport (packetBytes 0x49
        (leBytes 4 addr ++ leBytes 4 (crcFun data) ++ data)) =
      some (packetBytes 0 [])) :
    sendRow transport crcFun maxDataLength addr data =
      .ok [Cmd.programData addr (crcFun data) data] := by
  have hck := chunks_single data maxDataLength h0 hfit
  have hpa : packU 4 addr = .ok (leBytes 4 addr) := by
    rw [packU, if_pos (by norm_num; omega)]
  have hpc : packU 4 (crcFun data) = .ok (leBytes 4 (crcFun data)) := by
    rw [packU, if_pos (by norm_num; omega)]
  have hprog := sendCommandGetResponse_ok transport 0x49
    (leBytes 4 addr ++ leBytes 4 (crcFun data) ++ data) []
    (by omega)
    (by simp [leBytes_length]; omega)
    (by simp)
    ht
  simp only [sendRow, hck, List.dropLast_single, sendDataChunks,
    List.getLast?_singleton, hpa, hpc, hprog]
  rfl

/-- C9: with a 3-row image whose rows each fit one chunk, and a transport
whose reply to every acknowledgement-only command is a status-0 frame with
an empty payload (plus well-formed success replies to Enter DFU and Verify
Application), the orchestrator issues exactly Enter DFU, Set Application
Metadata, one Program Data per row, Verify Application and Exit DFU, in
that order, and reports success. -/
theorem update_command_sequence (transport : List Nat → Option (List Nat))
    (crcFun : List Nat → Nat) (app : AppState)
    (l1 l2 l3 : String) (a1 a2 a3 : Nat) (d1 d2 d3 jtag : List Nat)
    (hlines : app.lines = [l1, l2, l3])
    (hd1 : decodeLineE l1 = .ok (a1, d1))
    (hd2 : decodeLineE l2 = .ok (a2, d2))
    (hd3 : decodeLineE l3 = .ok (a3, d3))
    (hne1 : d1 ≠ []) (hne2 : d2 ≠ []) (hne3 : d3 ≠ [])
    (hs1 : d1.length ≤ 512) (hs2 : d2.length ≤ 512) (hs3 : d3.length ≤ 512)
    (hpid : app.productID < 4294967296) (happ : app.appID < 256)
    (hsa : app.startAddr < 4294967296) (hal : app.length < 4294967296)
    (ha1 : a1 < 4294967296) (ha2 : a2 < 4294967296) (ha3 : a3 < 4294967296)
    (hc1 : crcFun d1 < 4294967296) (hc2 : crcFun d2 < 4294967296)
    (hc3 : crcFun d3 < 4294967296)
    (hjtag : jtag.length = 8)
    (htE : transport (packetBytes 0x38 (leBytes 4 app.productID)) =
      some (packetBytes 0 jtag))
    (htM : transport (packetBytes 0x4C
        (leBytes 1 app.appID ++ leBytes 4 app.startAddr ++ leBytes 4 app.length)) =
      some (packetBytes 0 []))
    (htP1 : transport (packetBytes 0x49
        (leBytes 4 a1 ++ leBytes 4 (crcFun d1) ++ d1)) = some (packetBytes 0 []))
    (htP2 : transport (packetBytes 0x49
        (leBytes 4 a2 ++ leBytes 4 (crcFun d2) ++ d2)) = some (packetBytes 0 []))
    (htP3 : transport (packetBytes 0x49
        (leBytes 4 a3 ++ leBytes 4 (crcFun d3) ++ d3)) = some (packetBytes 0 []))
    (htV : transport (packetBytes 0x31 (leBytes 1 app.appID)) =
      some (packetBytes 0 [1])) :
    updateFirmware transport crcFun app 512 =
      .ok ([Cmd.enterDFU app.productID,
        Cmd.setApplicationMetadata app.appID app.startAddr app.length,
        Cmd.programData a1 (crcFun d1) d1,
        Cmd.programData a2 (crcFun d2) d2,
        Cmd.programData a3 (crcFun d3) d3,
        Cmd.verifyApplication app.appID, Cmd.exitDFU], true) := by
  have hp4 : packU 4 app.productID = .ok (leBytes 4 app.productID) := by
    rw [packU, if_pos (by norm_num; omega)]
  have hE := sendCommandGetResponse_ok transport 0x38 (leBytes 4 app.productID) jtag
    (by omega) (by simp [leBytes_length]) (by omega) htE
  obtain ⟨rr, hparse⟩ : ∃ r, parseEnterDFUResp jtag = .ok r := by
    rw [parseEnterDFUResp, if_pos (by simp [hjtag])]
    exact ⟨_, rfl⟩
  have hpA : packU 1 app.appID = .ok (leBytes 1 app.appID) := by
    rw [packU, if_pos (by norm_num; omega)]
  have hpS : packU 4 app.startAddr = .ok (leBytes 4 app.startAddr) := by
    rw [packU, if_pos (by norm_num; omega)]
  have hpL : packU 4 app.length = .ok (leBytes 4 app.length) := by
    rw [packU, if_pos (by norm_num; omega)]
  have hM := sendCommandGetResponse_ok transport 0x4C
    (leBytes 1 app.appID ++ leBytes 4 app.startAddr ++ leBytes 4 app.length) []
    (by omega) (by simp [leBytes_length]) (by simp) htM
  have hrow1 := sendRow_single transport crcFun 512 a1 d1 hne1 hs1 ha1 hc1
    (by omega) htP1
  have hrow2 := sendRow_single transport crcFun 512 a2 d2 hne2 hs2 ha2 hc2
    (by omega) htP2
  have hrow3 := sendRow_single transport crcFun 512 a3 d3 hne3 hs3 ha3 hc3
    (by omega) htP3
  have hrows : sendRows transport crcFun 512 [l1, l2, l3] =
      .ok [Cmd.programData a1 (crcFun d1) d1, Cmd.programData a2 (crcFun d2) d2,
        Cmd.programData a3 (crcFun d3) d3] := by
    simp only [sendRows, hd1, hd2, hd3, hrow1, hrow2, hrow3]
    rfl
  have hV := sendCommandGetResponse_ok transport 0x31 (leBytes 1 app.appID) [1]
    (by omega) (by simp [leBytes_length]) (by simp) htV
  simp only [updateFirmware, hp4, hE, hparse, hpA, hpS, hpL, hM, hlines, hrows, hV]
  rfl

/-- A concrete mock transport for witness runs: an 8-byte success payload
for Enter DFU of product 6, the reply `[1]` for Verify Application of app
5, and an empty status-0 acknowledgement for every other command packet. -/
def mockTransport (p : List Nat) : Option (List Nat) :=
  if p = packetBytes 0x38 (leBytes 4 6) then
    some (packetBytes 0 [0, 0, 0, 0, 0, 0, 0, 0])
  else if p = packetBytes 0x31 (leBytes 1 5) then some (packetBytes 0 [1])
  else some (packetBytes 0 [])

/-- Witness for C9 on a concrete 3-row image and `mockTransport`. -/
theorem update_command_sequence_witness :
    updateFirmware mockTransport (fun _ => 0)
      (AppState.mk 1 2 3 4 5 6 16 4 3 0
        [":000010000102", ":000020000304", ":000030000506"]) 512 =
      .ok ([Cmd.enterDFU 6, Cmd.setApplicationMetadata 5 16 4,
        Cmd.programData 1048576 0 [1, 2], Cmd.programData 2097152 0 [3, 4],
        Cmd.programData 3145728 0 [5, 6],
        Cmd.verifyApplication 5, Cmd.exitDFU], true) :=
  update_command_sequence mockTransport (fun _ => 0)
    (AppState.mk 1 2 3 4 5 6 16 4 3 0
      [":000010000102", ":000020000304", ":000030000506"])
    ":000010000102" ":000020000304" ":000030000506"
    1048576 2097152 3145728 [1, 2] [3, 4] [5, 6] [0, 0, 0, 0, 0, 0, 0, 0]
    rfl rfl rfl rfl
    (by decide) (by decide) (by decide) (by decide) (by decide) (by decide)
    (by decide) (by decide) (by decide) (by decide)
    (by decide) (by decide) (by decide) (by decide) (by decide) (by decide)
    (by decide)
    rfl rfl rfl rfl rfl rfl

/-- C10: any error from reading the next row in the middle of the
orchestration loop — here a malformed second data row — terminates the loop
exactly as end-of-data does: the orchestrator does not abort with that
error, but proceeds to issue Verify Application and Exit DFU as if all
rows had been consumed, and still reports the verify outcome. -/
theorem malformed_row_breaks_loop (transport : List Nat → Option (List Nat))
    (crcFun : List Nat → Nat) (app : AppState)
    (l1 l2 l3 : String) (a1 : Nat) (d1 jtag : List Nat) (e : PyErr)
    (hlines : app.lines = [l1, l2, l3])
    (hd1 : decodeLineE l1 = .ok (a1, d1))
    (hd2 : decodeLineE l2 = .error e)
    (hne1 : d1 ≠ []) (hs1 : d1.length ≤ 512)
    (hpid : app.productID < 4294967296) (happ : app.appID < 256)
    (hsa : app.startAddr < 4294967296) (hal : app.length < 4294967296)
    (ha1 : a1 < 4294967296) (hc1 : crcFun d1 < 4294967296)
    (hjtag : jtag.length = 8)
    (htE : transport (packetBytes 0x38 (leBytes 4 app.productID)) =
      some (packetBytes 0 jtag))
    (htM : transport (packetBytes 0x4C
        (leBytes 1 app.appID ++ leBytes 4 app.startAddr ++ leBytes 4 app.length)) =
      some (packetBytes 0 []))
    (htP1 : transport (packetBytes 0x49
        (leBytes 4 a1 ++ leBytes 4 (crcFun d1) ++ d1)) = some (packetBytes 0 []))
    (htV : transport (packetBytes 0x31 (leBytes 1 app.appID)) =
      some (packetBytes 0 [1])) :
    updateFirmware transport crcFun app 512 =
      .ok ([Cmd.enterDFU app.productID,
        Cmd.setApplicationMetadata app.appID app.startAddr app.length,
        Cmd.programData a1 (crcFun d1) d1,
        Cmd.verifyApplication app.appID, Cmd.exitDFU], true) := by
  have hp4 : packU 4 app.productID = .ok (leBytes 4 app.productID) := by
    rw [packU, if_pos (by norm_num; omega)]
  have hE := sendCommandGetResponse_ok transport 0x38 (leBytes 4 app.productID) jtag
    (by omega) (by simp [leBytes_length]) (by omega) htE
  obtain ⟨rr, hparse⟩ : ∃ r, parseEnterDFUResp jtag = .ok r := by
    rw [parseEnterDFUResp, if_pos (by simp [hjtag])]
    exact ⟨_, rfl⟩
  have hpA : packU 1 app.appID = .ok (leBytes 1 app.appID) := by
    rw [packU, if_pos (by norm_num; omega)]
  have hpS : packU 4 app.startAddr = .ok (leBytes 4 app.startAddr) := by
    rw [packU, if_pos (by norm_num; omega)]
  have hpL : packU 4 app.length = .ok (leBytes 4 app.length) := by
    rw [packU, if_pos (by norm_num; omega)]
  have hM := sendCommandGetResponse_ok transport 0x4C
    (leBytes 1 app.appID ++ leBytes 4 app.startAddr ++ leBytes 4 app.length) []
    (by omega) (by simp [leBytes_length]) (by simp) htM
  have hrow1 := sendRow_single transport crcFun 512 a1 d1 hne1 hs1 ha1 hc1
    (by omega) htP1
  have hrows : sendRows transport crcFun 512 [l1, l2, l3] =
      .ok [Cmd.programData a1 (crcFun d1) d1] := by
    simp only [sendRows, hd1, hd2, hrow1]
    rfl
  have hV := sendCommandGetResponse_ok transport 0x31 (leBytes 1 app.appID) [1]
    (by omega) (by simp [leBytes_length]) (by simp) htV
  simp only [updateFirmware, hp4, hE, hparse, hpA, hpS, hpL, hM, hlines, hrows, hV]
  rfl

/-- Witness for C10: the second line of the image is not a data row, the
third is never read, and the run still ends with Verify and Exit. -/
theorem malformed_row_breaks_loop_witness :
    updateFirmware mockTransport (fun _ => 0)
      (AppState.mk 1 2 3 4 5 6 16 4 3 0
        [":000010000102", "xyz", ":000030000506"]) 512 =
      .ok ([Cmd.enterDFU 6, Cmd.setApplicationMetadata 5 16 4,
        Cmd.programData 1048576 0 [1, 2],
        Cmd.verifyApplication 5, Cmd.exitDFU], true) :=
  malformed_row_breaks_loop mockTransport (fun _ => 0)
    (AppState.mk 1 2 3 4 5 6 16 4 3 0 [":000010000102", "xyz", ":000030000506"])
    ":000010000102" "xyz" ":000030000506" 1048576 [1, 2] [0, 0, 0, 0, 0, 0, 0, 0]
    PyErr.invalidApplicationFile
    rfl rfl rfl
    (by decide) (by decide) (by decide) (by decide) (by decide) (by decide)
    (by decide) (by decide) (by decide)
    rfl rfl rfl rfl
